import Mathlib

/-!
# Verification of the Qualys CertView harvester core

Shallow embedding of the repository's core services:
* `services/token_manager.py`   — `TokenManager.get_token`, `_fetch_new_token`
* `services/certview_client.py` — `CertViewClient.fetch_certificates`
* `services/sync_state.py`      — `SyncStateManager.save_state`,
  `save_certificates`, `clear_data`, `get_state`
* `services/sync_runner.py`     — `SyncRunner._run_sync_loop` (window planner
  and pagination loop), `_normalize_cert`, `stop_sync`
* `services/inventory_mapping.py` — `InventoryMappingService._run_mapping_loop`

Python dictionaries are modelled as insertion-ordered association lists over a
JSON value type `JVal`; machine floats for clock readings are modelled as
natural-number seconds; the SQLAlchemy session is modelled by explicit state
passing, with a boolean `fail` input standing for a commit failure and a
boolean output recording whether the Python function re-raises.
-/

namespace QualysApi

/-- JSON-ish dynamic value, the model of a Python object stored in a dict. -/
inductive JVal where
  | null : JVal
  | bool (b : Bool) : JVal
  | num (n : Int) : JVal
  | str (s : String) : JVal
  | arr (xs : List JVal) : JVal
  | obj (fs : List (String × JVal)) : JVal

/-- Structural equality test on `JVal`, the model of Python `==` on JSON data
(also of a database primary-key comparison). -/
def jbeq : JVal → JVal → Bool
  | .null, .null => true
  | .bool a, .bool b => a == b
  | .num a, .num b => a == b
  | .str a, .str b => a == b
  | .arr as, .arr bs => jbeqL as bs
  | .obj as, .obj bs => jbeqO as bs
  | _, _ => false
where
  jbeqL : List JVal → List JVal → Bool
    | [], [] => true
    | x :: xs, y :: ys => jbeq x y && jbeqL xs ys
    | _, _ => false
  jbeqO : List (String × JVal) → List (String × JVal) → Bool
    | [], [] => true
    | (k, v) :: xs, (l, w) :: ys => k == l && jbeq v w && jbeqO xs ys
    | _, _ => false

/-- Python truthiness of a value (`if x:`). -/
def jtruthy : JVal → Bool
  | .null => false
  | .bool b => b
  | .num n => n != 0
  | .str s => s != ""
  | .arr xs => !xs.isEmpty
  | .obj fs => !fs.isEmpty

/-- Python `str(x)` for the scalar values the code actually renders
(`",".join(str(s) for s in sources)`); containers get a fixed placeholder,
never exercised by the claims. -/
def jstr : JVal → String
  | .null => "None"
  | .bool b => if b then "True" else "False"
  | .num n => toString n
  | .str s => s
  | .arr _ => "<list>"
  | .obj _ => "<dict>"

/-- A Python dict: insertion-ordered association list. -/
abbrev Rec := List (String × JVal)

/-- First binding of a key, the model of `d[k]` presence / `d.get(k)` hit. -/
def dictGet : Rec → String → Option JVal
  | [], _ => none
  | (k, v) :: rest, key => if k == key then some v else dictGet rest key

/-- `d.get(k, dflt)`. -/
def dictGetD (r : Rec) (k : String) (dflt : JVal) : JVal :=
  (dictGet r k).getD dflt

/-- `d.get(k)` (default `None`). -/
def jget (r : Rec) (k : String) : JVal :=
  dictGetD r k .null

/-- Python `k in d`. -/
def hasKey (r : Rec) (k : String) : Bool :=
  (dictGet r k).isSome

/-- The key list of a dict, in insertion order. -/
def dictKeys (r : Rec) : List String :=
  r.map Prod.fst

/-! ## Record normalization — `SyncRunner._normalize_cert` -/

/-- `req_field(d, key)` from `sync_runner.py`: `d.get(key, '')`. -/
def req_field (d : Rec) (key : String) : JVal :=
  dictGetD d key (.str "")

/-- `raw.get(k, {}).get(sub)` — nested dict access used for issuer/subject. -/
def jgetObj (r : Rec) (k : String) : Rec :=
  match dictGetD r k (.obj []) with
  | .obj fs => fs
  | _ => []

/-- `",".join(str(s) for s in xs)`. -/
def joinComma (xs : List JVal) : String :=
  String.intercalate "," (xs.map jstr)

/-- Left-to-right deduplication, the model of the `set(...)` comprehension in
`_normalize_cert` (CPython's set iteration order is hash-dependent; the claims
only exercise inputs on which every order gives the same join). -/
def dedup : List String → List String
  | [] => []
  | x :: xs => if (dedup xs).contains x then dedup xs else x :: dedup xs

/-- `",".join(set(a.get('name', '') for a in assets_list))`. -/
def assetNames (assets : JVal) : String :=
  match assets with
  | .arr xs =>
      String.intercalate ","
        (dedup (xs.map (fun a =>
          match a with
          | .obj fs => jstr (dictGetD fs "name" (.str ""))
          | _ => "")))
  | _ => ""

/-- `SyncRunner._normalize_cert` (`sync_runner.py` lines 168-206), translated
line by line.  Note that the source computes a `certhash` local with an sha1
fallback and then never uses it: the returned dict carries
`raw.get('certhash')`.  The model preserves that behaviour exactly. -/
def normalize_cert (raw : Rec) : Rec :=
  let _certhash := dictGetD raw "certhash" (req_field raw "sha1")
  let sources := dictGetD raw "sources" (.arr [])
  let sources_str :=
    match sources with
    | .arr xs => joinComma xs
    | v => jstr v
  let assets_list := dictGetD raw "assets" (.arr [])
  let asset_names := assetNames assets_list
  [ ("id", jget raw "id"),
    ("certhash", jget raw "certhash"),
    ("keySize", jget raw "keySize"),
    ("serialNumber", jget raw "serialNumber"),
    ("validFromDate", jget raw "validFromDate"),
    ("validToDate", jget raw "validToDate"),
    ("signatureAlgorithm", jget raw "signatureAlgorithm"),
    ("extendedValidation", jget raw "extendedValidation"),
    ("selfSigned", jget raw "selfSigned"),
    ("issuer.name", jget (jgetObj raw "issuer") "name"),
    ("issuer.organization", jget (jgetObj raw "issuer") "organization"),
    ("subject.name", jget (jgetObj raw "subject") "name"),
    ("subject.organization", jget (jgetObj raw "subject") "organization"),
    ("assetCount", jget raw "assetCount"),
    ("instanceCount", jget raw "instanceCount"),
    ("sources", .str sources_str),
    ("assets", .str asset_names) ]

/-! ## Sync state — `SyncStateManager` (`sync_state.py`) -/

/-- The singleton `sync_state` row (`models.py`). `lastSyncTimestamp` is a
clock reading in seconds (`Option` for SQL `NULL`). -/
structure SyncState where
  lastSuccessfulValidFromDate : String
  lastSyncTimestamp : Option Nat
  totalRecordsCollected : Nat
  status : String
deriving DecidableEq

/-- Column defaults of `SyncState` in `models.py`, also the dict returned by
`get_state` when no row exists. -/
def defaultSyncState : SyncState :=
  { lastSuccessfulValidFromDate := "1900-01-01T00:00:00Z"
    lastSyncTimestamp := none
    totalRecordsCollected := 0
    status := "STOPPED" }

/-- `SyncStateManager.get_state`: the stored row, or the defaults when the
row is absent. -/
def getState (store : Option SyncState) : SyncState :=
  store.getD defaultSyncState

/-- `SyncStateManager.save_state` (lines 51-69), success path.  Mirrors the
Python guards exactly: `if valid_from_date:` and `if status:` are truthiness
tests (an empty string does not update), `if total_records is not None:` is an
`Option.isSome` test; `last_sync_timestamp` is unconditionally set to now. -/
def saveState (store : Option SyncState) (valid_from_date : Option String)
    (total_records : Option Nat) (status : Option String) (now : Nat) : SyncState :=
  let st := getState store
  let st := match valid_from_date with
    | some v => if v != "" then { st with lastSuccessfulValidFromDate := v } else st
    | none => st
  let st := match total_records with
    | some n => { st with totalRecordsCollected := n }
    | none => st
  let st := match status with
    | some v => if v != "" then { st with status := v } else st
    | none => st
  { st with lastSyncTimestamp := some now }

/-- One row of the `certificates` table (`models.py`), with every column that
`save_certificates` assigns.  Loosely-typed columns hold `JVal`;
`mapped_to_mip` is the SQL boolean column (default `False`), `mip_status`
defaults to `'Unknown'`; `full_json` holds the value passed to
`json.dumps` (serialization itself is injective and elided). -/
structure CertRow where
  id : JVal
  certhash : JVal := .null
  key_size : JVal := .null
  serial_number : JVal := .null
  valid_to_date : JVal := .null
  valid_to : JVal := .null
  valid_from_date : JVal := .null
  valid_from : JVal := .null
  signature_algorithm : JVal := .null
  extended_validation : JVal := .null
  created_date : JVal := .null
  dn : JVal := .null
  subject : JVal := .null
  update_date : JVal := .null
  last_found : JVal := .null
  imported : JVal := .null
  self_signed : JVal := .null
  issuer : JVal := .null
  root_issuer : JVal := .null
  issuer_category : JVal := .null
  instance_count : JVal := .null
  asset_count : JVal := .null
  sources : JVal := .null
  assets : JVal := .null
  mapped_to_mip : Bool := false
  mip_status : JVal := .str "Unknown"
  full_json : Rec := []

instance : Inhabited CertRow := ⟨{ id := .null }⟩

/-- The field updates `save_certificates` performs on a fetched-or-created
row (`sync_state.py` lines 88-118), one assignment per source line. -/
def updateRow (cert : CertRow) (cert_data : Rec) : CertRow :=
  let cert := { cert with
    certhash := jget cert_data "certhash"
    key_size := jget cert_data "keySize"
    serial_number := jget cert_data "serialNumber"
    valid_to_date := jget cert_data "validToDate"
    valid_to := jget cert_data "validTo"
    valid_from_date := jget cert_data "validFromDate"
    valid_from := jget cert_data "validFrom"
    signature_algorithm := jget cert_data "signatureAlgorithm"
    extended_validation := jget cert_data "extendedValidation"
    created_date := jget cert_data "createdDate"
    dn := jget cert_data "dn"
    subject := jget cert_data "subject"
    update_date := jget cert_data "updateDate"
    last_found := jget cert_data "lastFound"
    imported := jget cert_data "imported"
    self_signed := jget cert_data "selfSigned"
    issuer := jget cert_data "issuer"
    root_issuer := jget cert_data "rootissuer"
    issuer_category := jget cert_data "issuerCategory"
    instance_count := jget cert_data "instanceCount"
    asset_count := jget cert_data "assetCount"
    sources := jget cert_data "sources"
    assets := jget cert_data "assets" }
  let cert := if hasKey cert_data "mapped_to_mip"
    then { cert with mapped_to_mip := jtruthy (jget cert_data "mapped_to_mip") }
    else cert
  let cert := if hasKey cert_data "mip_status"
    then { cert with mip_status := jget cert_data "mip_status" }
    else cert
  { cert with full_json := cert_data }

/-- Replace the first element satisfying `p` (the session-object mutation of
the row found by a primary-key / filtered query). -/
def updateFirst (p : CertRow → Bool) (f : CertRow → CertRow) : List CertRow → List CertRow
  | [] => []
  | c :: rest => if p c then f c :: rest else c :: updateFirst p f rest

/-- `SyncStateManager.save_certificates` loop body over the batch (lines
77-119): rows lacking a truthy `id` are skipped, existing rows (matched by
primary key) are updated in place, new rows are inserted. -/
def saveCertsList (db : List CertRow) : List Rec → List CertRow
  | [] => db
  | cert_data :: rest =>
      let cert_id := jget cert_data "id"
      if !jtruthy cert_id then saveCertsList db rest
      else
        let db' :=
          if db.any (fun r => jbeq r.id cert_id)
          then updateFirst (fun r => jbeq r.id cert_id) (fun r => updateRow r cert_data) db
          else db ++ [updateRow { id := cert_id } cert_data]
        saveCertsList db' rest

/-! ## The full store and its write operations (for failure semantics) -/

/-- Both persisted tables: the singleton sync-state row and the certificate
catalog. -/
structure Store where
  state : Option SyncState
  certs : List CertRow
deriving Inhabited

/-- `save_state` with its exception handler: on a commit failure the session
is rolled back (state unchanged) and — per the source — the exception is
logged and swallowed, so the second component (did the call raise?) is always
`false`. -/
def saveStateOp (s : Store) (valid_from_date : Option String) (total_records : Option Nat)
    (status : Option String) (now : Nat) (fail : Bool) : Store × Bool :=
  if fail then (s, false)
  else ({ s with state := some (saveState s.state valid_from_date total_records status now) }, false)

/-- `save_certificates` with its exception handler: rollback then `raise`,
so on failure the store is unchanged and the call raises. -/
def saveCertificatesOp (s : Store) (certs : List Rec) (fail : Bool) : Store × Bool :=
  if fail then (s, true)
  else ({ s with certs := saveCertsList s.certs certs }, false)

/-- `clear_data` with its exception handler: both tables deleted on success;
on failure rollback, exception logged and swallowed. -/
def clearDataOp (s : Store) (fail : Bool) : Store × Bool :=
  if fail then (s, false)
  else ({ state := none, certs := [] }, false)

/-! ## Pagination loop — `SyncRunner._run_sync_loop` lines 113-146 -/

/-- Python `<` on strings: code-point lexicographic order. -/
def strLtL : List Char → List Char → Bool
  | [], [] => false
  | [], _ :: _ => true
  | _ :: _, [] => false
  | a :: as, b :: bs => if a < b then true else if b < a then false else strLtL as bs

/-- Python `<` on strings, lifted to `String`. -/
def strLt (a b : String) : Bool := strLtL a.data b.data

/-- The `validFromDate` value of a record as the string Python's `max` would
compare (non-string values are collapsed to `""`; on them the source would
raise a `TypeError`, a corner no claim exercises). -/
def vfdStr (r : Rec) : String :=
  match dictGet r "validFromDate" with
  | some (.str s) => s
  | _ => ""

/-- `max(c['validFromDate'] for c in certs)` for a non-empty batch: Python's
`max`, keeping the earlier element on ties. -/
def maxVfd : List Rec → String
  | [] => ""
  | c :: cs => cs.foldl (fun a r => if strLt a (vfdStr r) then vfdStr r else a) (vfdStr c)

/-- Observable calls the pagination loop makes. -/
inductive Ev where
  | fetch (page : Nat)
  | saveCerts (batch : List Rec)
  | stateWrite (validFromDate : String) (totalRecords : Nat)

/-- The pagination loop of `_run_sync_loop` (lines 113-146) for one window,
translated from the source: fetch page `page`; an empty response breaks; a
non-empty batch is normalized, saved with one `save_certificates` call, the
checkpoint written via `save_state` with the batch max and the previous total
plus the count; a short batch breaks, otherwise the page number is
incremented.  `server` gives the response to each fetch; the cancellation
event is never set on the paths the claims describe; `fuel` bounds the
unbounded `while`. -/
def runPages (server : Nat → List Rec) (pageSize : Nat) (now : Nat) :
    Nat → Nat → Option SyncState → Option SyncState × List Ev
  | 0, _, st => (st, [])
  | fuel + 1, page, st =>
      let data := server page
      if data.isEmpty then (st, [.fetch page])
      else
        let normalized := data.map normalize_cert
        let maxDate := maxVfd normalized
        let totalSoFar := (getState st).totalRecordsCollected
        let newTotal := totalSoFar + data.length
        let st' := some (saveState st (some maxDate) (some newTotal) none now)
        let evs := [Ev.fetch page, Ev.saveCerts normalized, Ev.stateWrite maxDate newTotal]
        if data.length < pageSize then (st', evs)
        else
          let next := runPages server pageSize now fuel (page + 1) st'
          (next.1, evs ++ next.2)

/-- Modelled from the spec: the pagination loop as the claim words it —
pages are fetched in ascending order starting from the given page; an empty
returned array ends the window; each non-empty batch is persisted with one
`saveCertificates` call and then the checkpoint is updated with
`validFromDate = max(validFromDate)` over the batch and
`totalRecords = previous total + batch count`; a batch with fewer than
`pageSize` records ends the window. -/
def paginationSpec (server : Nat → List Rec) (pageSize : Nat) (now : Nat) :
    Nat → Nat → Option SyncState → Option SyncState × List Ev
  | 0, _, st => (st, [])
  | fuel + 1, page, st =>
      let batch := server page
      if batch.isEmpty then (st, [.fetch page])
      else
        let mx := maxVfd batch
        let prev := (getState st).totalRecordsCollected
        let st' := some { getState st with
          lastSuccessfulValidFromDate := mx
          totalRecordsCollected := prev + batch.length
          lastSyncTimestamp := some now }
        let evs := [Ev.fetch page, Ev.saveCerts (batch.map normalize_cert),
                    Ev.stateWrite mx (prev + batch.length)]
        if batch.length < pageSize then (st', evs)
        else
          let next := paginationSpec server pageSize now fuel (page + 1) st'
          (next.1, evs ++ next.2)

/-- The page numbers of the fetch events of a trace, in order. -/
def fetchedPages (evs : List Ev) : List Nat :=
  evs.filterMap (fun e => match e with | .fetch p => some p | _ => none)

/-- The checkpoint writes of a trace, in order. -/
def stateWrites (evs : List Ev) : List (String × Nat) :=
  evs.filterMap (fun e => match e with | .stateWrite v t => some (v, t) | _ => none)

/-! ## Window planner — `SyncRunner._run_sync_loop` lines 60-109 -/

/-- A naive Gregorian datetime, second precision, mirroring Python's
`datetime` component order so that tuple comparison is datetime comparison. -/
structure DT where
  year : Nat
  month : Nat
  day : Nat
  hour : Nat
  minute : Nat
  second : Nat
deriving DecidableEq

/-- `datetime` strict comparison (componentwise lexicographic). -/
def dtLt (a b : DT) : Bool :=
  if a.year != b.year then a.year < b.year
  else if a.month != b.month then a.month < b.month
  else if a.day != b.day then a.day < b.day
  else if a.hour != b.hour then a.hour < b.hour
  else if a.minute != b.minute then a.minute < b.minute
  else a.second < b.second

/-- `datetime` non-strict comparison. -/
def dtLe (a b : DT) : Bool := !dtLt b a

/-- Gregorian leap year. -/
def isLeap (y : Nat) : Bool := y % 4 == 0 && (y % 100 != 0 || y % 400 == 0)

/-- Days in a month. -/
def daysInMonth (y m : Nat) : Nat :=
  if m == 2 then (if isLeap y then 29 else 28)
  else if m == 4 || m == 6 || m == 9 || m == 11 then 30
  else 31

/-- `timedelta(days=1)` added to a datetime. -/
def addDay (t : DT) : DT :=
  if t.day < daysInMonth t.year t.month then { t with day := t.day + 1 }
  else if t.month < 12 then { t with month := t.month + 1, day := 1 }
  else { t with year := t.year + 1, month := 1, day := 1 }

/-- `datetime(year, 12, 31, 23, 59, 59)`. -/
def endOfYear (y : Nat) : DT := ⟨y, 12, 31, 23, 59, 59⟩

/-- `datetime(year, 1, 1)`. -/
def startOfYear (y : Nat) : DT := ⟨y, 1, 1, 0, 0, 0⟩

/-- The year loop of `_run_sync_loop` (lines 92-159), windows only: while
`current_year <= target_year`, the window starts at `start_dt` for the first
(partial) year and at Jan 1 otherwise, ends at Dec 31 23:59:59 of the year
clamped at `now`, and `current_year` is incremented.  The stop event is never
set on the paths the claims describe; `fuel` bounds the loop. -/
def codeWindowsGo (startDt now : DT) : Nat → Nat → List (DT × DT)
  | 0, _ => []
  | fuel + 1, yr =>
      if yr ≤ now.year then
        let yearStart := if yr == startDt.year then startDt else startOfYear yr
        let e := endOfYear yr
        let yearEnd := if dtLt now e then now else e
        (yearStart, yearEnd) :: codeWindowsGo startDt now fuel (yr + 1)
      else []

/-- The windows `_run_sync_loop` issues, given the stored
`last_successful_validFromDate` (as a datetime) and `now`: the sweep start is
`last + 1 day` and the year loop runs from its year to `now`'s year. -/
def codeWindows (last now : DT) : List (DT × DT) :=
  let start := addDay last
  codeWindowsGo start now (now.year + 1 - start.year) start.year

/-- Modelled from the spec (claim C6 as stated): while the cursor does not
exceed `now`, emit the window from the cursor to the end of the cursor's year
clamped at `now`, then advance the cursor to the start of the next year. -/
def claimWindowsGo (now : DT) : Nat → DT → List (DT × DT)
  | 0, _ => []
  | fuel + 1, cursor =>
      if dtLe cursor now then
        let e := endOfYear cursor.year
        let we := if dtLt now e then now else e
        (cursor, we) :: claimWindowsGo now fuel (startOfYear (cursor.year + 1))
      else []

/-- The window list claim C6 describes, cursor starting at `last + 1 day`. -/
def claimWindows (last now : DT) : List (DT × DT) :=
  let start := addDay last
  claimWindowsGo now (now.year + 1 - start.year) start

/-- Modelled from the spec (claim C6 amended): identical to `claimWindowsGo`
except that the loop guard compares years — while the cursor's year does not
exceed `now`'s year — as the source loop does. -/
def amendedWindowsGo (now : DT) : Nat → DT → List (DT × DT)
  | 0, _ => []
  | fuel + 1, cursor =>
      if cursor.year ≤ now.year then
        let e := endOfYear cursor.year
        let we := if dtLt now e then now else e
        (cursor, we) :: amendedWindowsGo now fuel (startOfYear (cursor.year + 1))
      else []

/-- The window list of the amended claim C6. -/
def amendedWindows (last now : DT) : List (DT × DT) :=
  let start := addDay last
  amendedWindowsGo now (now.year + 1 - start.year) start

/-! ## Annotation worker — `InventoryMappingService._run_mapping_loop` -/

/-- One `inventory_mapping` row. -/
structure MRow where
  serial_number : String
  certificate_name : String
  certificate_status : String
deriving DecidableEq

/-- Does a certificate row match a mapping row's serial
(`filter_by(serial_number=mapping.serial_number)`)? -/
def serialMatch (c : CertRow) (m : MRow) : Bool :=
  jbeq c.serial_number (.str m.serial_number)

/-- The update the apply phase performs on a matched, unmapped certificate. -/
def markMapped (c : CertRow) (m : MRow) : CertRow :=
  { c with mapped_to_mip := true, mip_status := .str m.certificate_status }

/-- One iteration of `_run_mapping_loop` (lines 85-106): find the first
certificate whose `serial_number` equals the mapping's; if none, or it is
already mapped, do nothing; otherwise set `mapped_to_mip = True` and
`mip_status = mapping.certificate_status` on that row. -/
def applyOne (m : MRow) : List CertRow → List CertRow
  | [] => []
  | c :: rest =>
      if serialMatch c m then
        if c.mapped_to_mip then c :: rest
        else markMapped c m :: rest
      else c :: applyOne m rest

/-- The whole apply phase: the mapping rows processed in order, each committed
one row at a time (commit failures roll back the single-row change, which the
claims' statements quantify away by taking the success path). -/
def applyMappings (db : List CertRow) (ms : List MRow) : List CertRow :=
  ms.foldl (fun db m => applyOne m db) db

/-! ## Token cache — `TokenManager` (`token_manager.py`) -/

/-- `REFRESH_INTERVAL = 3.5 * 60 * 60` seconds. -/
def REFRESH_INTERVAL : Nat := 12600

/-- The token manager's mutable pair: `_token` (initially `None`, modelled
`.null`) and `_token_issue_time` (a clock reading in seconds). -/
structure TMState where
  token : JVal
  issueTime : Nat

/-- An auth-endpoint response: its JSON parse (when `response.json()`
succeeds) and its raw text. -/
structure AuthResp where
  json : Option Rec
  text : String

/-- The tail of `_fetch_new_token` (lines 77-85): the token is
`data['token']`, else `data['access_token']`, else the raw body; on a JSON
parse failure, the raw body. -/
def extractToken (r : AuthResp) : JVal :=
  match r.json with
  | some data =>
      if hasKey data "token" then dictGetD data "token" .null
      else if hasKey data "access_token" then dictGetD data "access_token" .null
      else .str r.text
  | none => .str r.text

/-- `TokenManager.get_token` (lines 28-45): under the lock, if a truthy token
is cached, no refresh is forced, and its age is below `REFRESH_INTERVAL`,
return it; otherwise fetch a new token (`resp` is the auth response that
fetch receives) and record its issue time.  The two `time.time()` readings
are modelled by the single instant `now`. -/
def getToken (st : TMState) (now : Nat) (force : Bool) (resp : AuthResp) : JVal × TMState :=
  if jtruthy st.token && !force && (now - st.issueTime < REFRESH_INTERVAL) then
    (st.token, st)
  else
    let t := extractToken resp
    (t, { token := t, issueTime := now })

/-- A sequence of `get_token` calls: each entry is (clock reading, forced?,
auth response available to a fetch); returns the values handed out. -/
def runTokenCalls (st : TMState) : List (Nat × Bool × AuthResp) → List JVal × TMState
  | [] => ([], st)
  | (now, force, resp) :: rest =>
      let r := getToken st now force resp
      let next := runTokenCalls r.2 rest
      (r.1 :: next.1, next.2)

/-! ## API client — `CertViewClient.fetch_certificates` -/

/-- What one POST of the list request can produce: a response with a status
code and parsed JSON body, or a transport-level exception. -/
inductive AttemptOutcome where
  | resp (status : Nat) (body : List Rec)
  | netErr

/-- Did this attempt come back 401 or 403? -/
def isAuthFail (o : AttemptOutcome) : Bool :=
  match o with
  | .resp s _ => s == 401 || s == 403
  | .netErr => false

/-- The retry loop of `fetch_certificates` (lines 41-70).  `outcomes n` is
what attempt `n` (1-based) produces.  Returns the `force_refresh` flags of
the token requests made, in order, and the call's result (`Except.error ()`
models a raised exception).  Translated from the source: while
`attempts < max_attempts`, get a token with `force_refresh = attempts > 1`,
POST; on 401/403 `continue`; on any other ≥400 status `raise_for_status`
raises and the handler re-raises only when `attempts == max_attempts`
(otherwise sleep and retry); transport errors take the same handler; a 2xx
returns the body.  Falling out of the loop returns `[]`. -/
def fetchGo (outcomes : Nat → AttemptOutcome) (maxAttempts : Nat) :
    Nat → Nat → List Bool × Except Unit (List Rec)
  | _, 0 => ([], .ok [])
  | attempts, fuel + 1 =>
      if attempts < maxAttempts then
        let n := attempts + 1
        let force := decide (n > 1)
        match outcomes n with
        | .resp s body =>
            if s == 401 || s == 403 then
              let next := fetchGo outcomes maxAttempts n fuel
              (force :: next.1, next.2)
            else if 400 ≤ s then
              if n == maxAttempts then ([force], .error ())
              else
                let next := fetchGo outcomes maxAttempts n fuel
                (force :: next.1, next.2)
            else ([force], .ok body)
        | .netErr =>
            if n == maxAttempts then ([force], .error ())
            else
              let next := fetchGo outcomes maxAttempts n fuel
              (force :: next.1, next.2)
      else ([], .ok [])

/-- `fetch_certificates` proper: `max_attempts = 2`, starting with zero
attempts made. -/
def fetchCertificates (outcomes : Nat → AttemptOutcome) : List Bool × Except Unit (List Rec) :=
  fetchGo outcomes 2 0 2

/-! ## `SyncRunner.stop_sync` -/

/-- The runner state `stop_sync` touches: the cooperative stop event and the
store. -/
structure RunnerSt where
  stopSet : Bool
  store : Option SyncState

/-- `stop_sync` (lines 50-55): set the stop event, join the worker (a pure
wait), then unconditionally `save_state(status="STOPPED")`. -/
def stopSync (r : RunnerSt) (now : Nat) : RunnerSt :=
  let r := { r with stopSet := true }
  { r with store := some (saveState r.store none none (some "STOPPED") now) }

/-! ## Concrete inputs used by counterexamples and witnesses -/

/-- A raw upstream record that has an `sha1` but no `certhash`. -/
def exRaw : Rec :=
  [("id", .num 1), ("sha1", .str "abc"), ("validFromDate", .str "2020-01-01T00:00:00Z")]

/-- A record whose `validFromDate` is late in the year. -/
def recLate : Rec := [("id", .num 1), ("validFromDate", .str "2020-05-05T00:00:00Z")]

/-- A record whose `validFromDate` is early in the year. -/
def recEarly : Rec := [("id", .num 2), ("validFromDate", .str "2020-01-01T00:00:00Z")]

/-- A server whose page 0 holds the late record and page 1 the early one. -/
def serverLateEarly : Nat → List Rec :=
  fun p => if p == 0 then [recLate] else if p == 1 then [recEarly] else []

/-- An auth response carrying token `v0`. -/
def respV0 : AuthResp := ⟨some [("token", .str "v0")], "rawbody"⟩

/-- An auth response carrying token `v1`. -/
def respV1 : AuthResp := ⟨some [("token", .str "v1")], "rawbody"⟩

/-- A certificate row already annotated (`mappedToMip = true`,
`mipStatus = "A"`). -/
def mappedRow : CertRow :=
  { id := .num 1
    serial_number := .str "S"
    mapped_to_mip := true
    mip_status := .str "A" }

/-- A mapping row targeting the same serial with a different status. -/
def remapRow : MRow := ⟨"S", "name", "B"⟩

/-! ## Claim C9 — `save_state` partial update -/

/-- C9: for every call to `saveState`, only the supplied fields among
`validFromDate`, `totalRecords` and `status` are changed (a changed field was
supplied with exactly its new value), every omitted field keeps its previous
value, and `lastSyncTimestamp` is always set to the current time. -/
theorem claim9_saveState_frame (store : Option SyncState) (vfd : Option String)
    (tot : Option Nat) (status : Option String) (now : Nat) :
    (saveState store vfd tot status now).lastSyncTimestamp = some now
  ∧ (vfd = none → (saveState store vfd tot status now).lastSuccessfulValidFromDate
      = (getState store).lastSuccessfulValidFromDate)
  ∧ (tot = none → (saveState store vfd tot status now).totalRecordsCollected
      = (getState store).totalRecordsCollected)
  ∧ (status = none → (saveState store vfd tot status now).status = (getState store).status)
  ∧ ((saveState store vfd tot status now).lastSuccessfulValidFromDate
      ≠ (getState store).lastSuccessfulValidFromDate
      → vfd = some (saveState store vfd tot status now).lastSuccessfulValidFromDate)
  ∧ ((saveState store vfd tot status now).totalRecordsCollected
      ≠ (getState store).totalRecordsCollected
      → tot = some (saveState store vfd tot status now).totalRecordsCollected)
  ∧ ((saveState store vfd tot status now).status ≠ (getState store).status
      → status = some (saveState store vfd tot status now).status) := by
  cases vfd <;> cases tot <;> cases status <;>
    simp only [saveState] <;> (first | (split_ifs <;> simp_all) | simp_all)

/-- Witness for C9 at a concrete input: with no fields supplied the
checkpoint date is untouched. -/
theorem claim9_saveState_frame_witness :
    (saveState none none none none 5).lastSuccessfulValidFromDate
      = (getState none).lastSuccessfulValidFromDate :=
  (claim9_saveState_frame none none none none 5).2.1 rfl

/-! ## Claim C10 — `stop_sync` unconditionally persists STOPPED -/

/-- C10: `stop_sync` sets the stop event and then persists
`status = "STOPPED"` for every prior store state — including a prior
`COMPLETED` or `ERROR` status, which is overwritten — while leaving the
checkpoint date and total untouched. -/
theorem claim10_stop_persists_stopped (r : RunnerSt) (now : Nat) :
    (stopSync r now).stopSet = true
  ∧ (getState (stopSync r now).store).status = "STOPPED"
  ∧ (getState (stopSync r now).store).lastSuccessfulValidFromDate
      = (getState r.store).lastSuccessfulValidFromDate
  ∧ (getState (stopSync r now).store).totalRecordsCollected
      = (getState r.store).totalRecordsCollected := by
  refine ⟨rfl, ?_, ?_, ?_⟩ <;> simp [stopSync, saveState, getState]

/-! ## Claim C3 — write failure semantics of the Store -/

/-- C3 counterexample: a failing `save_state` write is rolled back but the
error is *not* surfaced — the source logs it and swallows it (and so does
`clear_data`); the claim that every Store write surfaces its error is false. -/
theorem claim3_counterexample :
    saveStateOp ⟨some defaultSyncState, []⟩ (some "2020-01-01T00:00:00Z") none none 5 true
      = (⟨some defaultSyncState, []⟩, false)
  ∧ clearDataOp ⟨some defaultSyncState, []⟩ true = (⟨some defaultSyncState, []⟩, false) :=
  ⟨rfl, rfl⟩

/-- C3 amended: on any write failure the transaction is rolled back (the
store is unchanged) in all three operations, but only `save_certificates`
re-raises the error; `save_state` and `clear_data` log and swallow it. -/
theorem claim3_rollback_semantics (s : Store) (vfd : Option String) (tot : Option Nat)
    (status : Option String) (now : Nat) (certs : List Rec) (fail : Bool) :
    (fail = true → (saveStateOp s vfd tot status now fail).1 = s)
  ∧ (fail = true → (saveCertificatesOp s certs fail).1 = s)
  ∧ (fail = true → (clearDataOp s fail).1 = s)
  ∧ (saveCertificatesOp s certs fail).2 = fail
  ∧ (saveStateOp s vfd tot status now fail).2 = false
  ∧ (clearDataOp s fail).2 = false := by
  cases fail <;> simp [saveStateOp, saveCertificatesOp, clearDataOp]

/-- Witness for C3 amended at a concrete input: a failing
`save_certificates` leaves the store unchanged. -/
theorem claim3_rollback_semantics_witness :
    (saveCertificatesOp ⟨none, []⟩ [exRaw] true).1 = ⟨none, []⟩ :=
  (claim3_rollback_semantics ⟨none, []⟩ none none none 0 [exRaw] true).2.1 rfl

/-! ## Claim C1 — 401/403 handling in `fetch_certificates` -/

/-- C1 counterexample: when both attempts come back 401, the call makes
exactly two token requests (the second forced) and then falls out of the
retry loop returning `Except.ok []` — an empty certificate list, not a
propagated error as the claim states. -/
theorem claim1_counterexample :
    fetchCertificates (fun _ => .resp 401 []) = ([false, true], .ok [])
  ∧ (Except.ok ([] : List Rec) : Except Unit (List Rec)) ≠ .error () :=
  ⟨rfl, fun h => nomatch h⟩

/-- C1 amended: `fetch_certificates` performs at most one top-level retry
(at most two token requests, the second always with a forced refresh); if
the first attempt fails with 401/403 a second attempt is made with a freshly
forced token; and if the second attempt also fails with 401 or 403, the call
returns an empty list to the caller (no error is raised). -/
theorem claim1_auth_retry (outcomes : Nat → AttemptOutcome) :
    ((fetchCertificates outcomes).1 = [false] ∨ (fetchCertificates outcomes).1 = [false, true])
  ∧ (isAuthFail (outcomes 1) = true → (fetchCertificates outcomes).1 = [false, true])
  ∧ (isAuthFail (outcomes 1) = true → isAuthFail (outcomes 2) = true →
      fetchCertificates outcomes = ([false, true], .ok [])) := by
  cases h1 : outcomes 1 <;> cases h2 : outcomes 2 <;>
    simp [fetchCertificates, fetchGo, isAuthFail, h1, h2] <;>
    split_ifs <;> simp_all

/-- Witness for C1 amended: two distinct auth failures (401 then 403) yield
the empty-list result with one forced retry. -/
theorem claim1_auth_retry_witness :
    fetchCertificates (fun n => if n == 1 then .resp 401 [] else .resp 403 [])
      = ([false, true], .ok []) :=
  (claim1_auth_retry (fun n => if n == 1 then .resp 401 [] else .resp 403 [])).2.2 rfl rfl

/-! ## Claim C6 — the window planner -/

lemma codeWindowsGo_eq_after (startDt now : DT) (fuel : Nat) :
    ∀ yr, startDt.year < yr →
      codeWindowsGo startDt now fuel yr = amendedWindowsGo now fuel (startOfYear yr) := by
  induction fuel with
  | zero => intro yr _; rfl
  | succ fuel ih =>
      intro yr h
      have hne : (yr == startDt.year) = false := by
        simp [Nat.ne_of_gt h]
      by_cases hle : yr ≤ now.year
      · simp [codeWindowsGo, amendedWindowsGo, startOfYear, hle, hne,
          ih (yr + 1) (Nat.lt_succ_of_lt h)]
      · simp [codeWindowsGo, amendedWindowsGo, startOfYear, hle]

lemma codeWindowsGo_eq_first (startDt now : DT) (fuel : Nat) :
    codeWindowsGo startDt now fuel startDt.year = amendedWindowsGo now fuel startDt := by
  cases fuel with
  | zero => rfl
  | succ fuel =>
      by_cases hle : startDt.year ≤ now.year
      · simp [codeWindowsGo, amendedWindowsGo, hle,
          codeWindowsGo_eq_after startDt now fuel (startDt.year + 1) (Nat.lt_succ_self _)]
      · simp [codeWindowsGo, amendedWindowsGo, hle]

/-- C6 counterexample: with the checkpoint on the same day as `now`, the
cursor (`last + 1 day`) already exceeds `now`, yet the source's year loop
(guarded by `current_year <= target_year`, not by `cursor ≤ now`) still
issues one window — whose start lies beyond `now` and beyond its own end —
while the claim as stated yields no window at all. -/
theorem claim6_counterexample :
    codeWindows ⟨2023, 6, 15, 12, 0, 0⟩ ⟨2023, 6, 15, 13, 0, 0⟩
      = [(⟨2023, 6, 16, 12, 0, 0⟩, ⟨2023, 6, 15, 13, 0, 0⟩)]
  ∧ claimWindows ⟨2023, 6, 15, 12, 0, 0⟩ ⟨2023, 6, 15, 13, 0, 0⟩ = []
  ∧ dtLe ⟨2023, 6, 16, 12, 0, 0⟩ ⟨2023, 6, 15, 13, 0, 0⟩ = false :=
  ⟨rfl, rfl, rfl⟩

/-- C6 amended: the planner sets the sweep cursor to
`lastSuccessfulValidFromDate + 1 day`; while the cursor's *year* does not
exceed `now`'s year (the source's guard), each yearly window starts at the
cursor, ends at Dec 31 23:59:59 of the cursor's year (inclusive-second)
clamped at `now`, and the cursor then advances to the start of the next
year, so windows are processed strictly in chronological order. -/
theorem claim6_window_planner (last now : DT) :
    codeWindows last now = amendedWindows last now := by
  unfold codeWindows amendedWindows
  exact codeWindowsGo_eq_first (addDay last) now _

/-! ## Claim C4 — checkpoint monotonicity -/

/-- C4 (failing execution): with page size 1, a window whose page 0 holds a
record dated 2020-05-05 and whose page 1 holds a record dated 2020-01-01
produces two checkpoint writes in which the later
`lastSuccessfulValidFromDate` is lexicographically *smaller* than the
earlier one: the source overwrites the checkpoint unconditionally although
its own comment says it should only update when the new max is newer. -/
theorem claim4_checkpoint_can_decrease :
    stateWrites (runPages serverLateEarly 1 0 3 0 none).2
      = [("2020-05-05T00:00:00Z", 1), ("2020-01-01T00:00:00Z", 2)]
  ∧ strLt "2020-01-01T00:00:00Z" "2020-05-05T00:00:00Z" = true :=
  ⟨rfl, rfl⟩

/-! ## Claim C5 — the pagination loop -/

lemma dictGet_normalize_vfd (raw : Rec) :
    dictGet (normalize_cert raw) "validFromDate" = some (jget raw "validFromDate") := rfl

lemma vfdStr_normalize (raw : Rec) : vfdStr (normalize_cert raw) = vfdStr raw := by
  unfold vfdStr
  rw [dictGet_normalize_vfd]
  unfold jget dictGetD
  cases h : dictGet raw "validFromDate" with
  | none => rfl
  | some v => cases v <;> rfl

lemma maxVfd_map_normalize (l : List Rec) : maxVfd (l.map normalize_cert) = maxVfd l := by
  cases l with
  | nil => rfl
  | cons c cs =>
      simp only [List.map_cons, maxVfd, List.foldl_map, vfdStr_normalize]

lemma foldl_max_ne_empty :
    ∀ (cs : List Rec) (a : String), a ≠ "" → (∀ r ∈ cs, vfdStr r ≠ "") →
      cs.foldl (fun a r => if strLt a (vfdStr r) then vfdStr r else a) a ≠ "" := by
  intro cs
  induction cs with
  | nil => intro a ha _; exact ha
  | cons r rest ih =>
      intro a ha hall
      simp only [List.foldl_cons]
      apply ih
      · by_cases hc : strLt a (vfdStr r) = true
        · rw [if_pos hc]; exact hall r (List.mem_cons_self r rest)
        · rw [if_neg hc]; exact ha
      · intro r' hr'; exact hall r' (List.mem_cons_of_mem _ hr')

lemma maxVfd_ne_empty (l : List Rec) (hall : ∀ r ∈ l, vfdStr r ≠ "") (hne : l ≠ []) :
    maxVfd l ≠ "" := by
  cases l with
  | nil => exact absurd rfl hne
  | cons c cs =>
      exact foldl_max_ne_empty cs (vfdStr c) (hall c (List.mem_cons_self c cs))
        (fun r hr => hall r (List.mem_cons_of_mem _ hr))

lemma saveState_checkpoint (st : Option SyncState) (mx : String) (n now : Nat) (h : mx ≠ "") :
    saveState st (some mx) (some n) none now
      = { getState st with
          lastSuccessfulValidFromDate := mx
          totalRecordsCollected := n
          lastSyncTimestamp := some now } := by
  have hb : (mx != "") = true := bne_iff_ne.mpr h
  simp [saveState, hb]

/-- C5: for each window, the pagination loop refines the claim's description
exactly — pages are fetched in ascending order starting at 0 (the fetched
page numbers form a contiguous run); an empty returned array ends the
window; each non-empty batch is persisted with one `saveCertificates` call
and then the checkpoint is updated with `validFromDate = max(validFromDate)`
over the batch and `totalRecords = previous total + batch count`; a batch
with fewer than `pageSize` records ends the window.  The hypothesis says
every served record carries a (string) `validFromDate`, which the upstream
payloads do; without it Python's `max` would raise. -/
theorem claim5_pagination_refines (server : Nat → List Rec) (pageSize now : Nat)
    (hserver : ∀ p, ∀ r ∈ server p, vfdStr r ≠ "") :
    (∀ fuel page st, runPages server pageSize now fuel page st
        = paginationSpec server pageSize now fuel page st)
  ∧ (∀ fuel page st, ∃ k,
      fetchedPages (runPages server pageSize now fuel page st).2 = List.range' page k) := by
  constructor
  · intro fuel
    induction fuel with
    | zero => intro page st; rfl
    | succ fuel ih =>
        intro page st
        simp only [runPages, paginationSpec]
        by_cases hempty : (server page).isEmpty
        · simp [hempty]
        · have hne : server page ≠ [] := by
            intro hh
            rw [hh] at hempty
            exact hempty rfl
          have hmx : maxVfd (server page) ≠ "" := maxVfd_ne_empty _ (hserver page) hne
          simp only [hempty, if_false, Bool.false_eq_true]
          rw [maxVfd_map_normalize]
          rw [saveState_checkpoint _ _ _ _ hmx]
          by_cases hshort : (server page).length < pageSize
          · simp [hshort]
          · simp [hshort, ih]
  · intro fuel
    induction fuel with
    | zero => intro page st; exact ⟨0, rfl⟩
    | succ fuel ih =>
        intro page st
        simp only [runPages]
        by_cases hempty : (server page).isEmpty
        · exact ⟨1, by simp [hempty, fetchedPages]⟩
        · by_cases hshort : (server page).length < pageSize
          · exact ⟨1, by simp [hempty, hshort, fetchedPages]⟩
          · obtain ⟨k, hk⟩ := ih (page + 1)
              (some (saveState st (some (maxVfd (List.map normalize_cert (server page))))
                (some ((getState st).totalRecordsCollected + (server page).length)) none now))
            refine ⟨k + 1, ?_⟩
            simp [hempty, hshort, fetchedPages, List.filterMap_append, List.range'_succ] at hk ⊢
            exact hk

/-- Witness for C5 at a concrete server (two one-record pages then an empty
page): the loop and the claim's description coincide. -/
theorem claim5_pagination_refines_witness :
    runPages serverLateEarly 1 7 3 0 none = paginationSpec serverLateEarly 1 7 3 0 none :=
  (claim5_pagination_refines serverLateEarly 1 7 (by
    intro p r hr
    unfold serverLateEarly at hr
    by_cases h0 : (p == 0) = true
    · simp [h0] at hr
      subst hr
      decide
    · by_cases h1 : (p == 1) = true
      · simp [h0, h1] at hr
        subst hr
        decide
      · simp [h0, h1] at hr)).1 3 0 none

/-! ## Claim C7 — `mappedToMip` monotonicity and the apply phase -/

lemma applyOne_getD (m : MRow) :
    ∀ (db : List CertRow) (i : Nat) (d : CertRow),
      (applyOne m db).getD i d = db.getD i d ∨
      ((db.getD i d).mapped_to_mip = false ∧ serialMatch (db.getD i d) m = true ∧
        (applyOne m db).getD i d = markMapped (db.getD i d) m) := by
  intro db
  induction db with
  | nil => intro i d; left; rfl
  | cons c rest ih =>
      intro i d
      simp only [applyOne]
      by_cases hs : serialMatch c m = true
      · by_cases hm : c.mapped_to_mip = true
        · left; simp [hs, hm]
        · rw [if_pos hs, if_neg hm]
          cases i with
          | zero =>
              right
              refine ⟨Bool.not_eq_true _ ▸ hm, ?_, ?_⟩ <;> simp [hs]
          | succ i => left; simp [List.getD_cons_succ]
      · rw [if_neg hs]
        cases i with
        | zero => left; simp [List.getD_cons_zero]
        | succ i => simpa [List.getD_cons_succ] using ih i d

lemma applyOne_frozen (m : MRow) (db : List CertRow) (i : Nat) (d : CertRow)
    (h : (db.getD i d).mapped_to_mip = true) :
    (applyOne m db).getD i d = db.getD i d := by
  rcases applyOne_getD m db i d with he | ⟨hf, _, _⟩
  · exact he
  · rw [h] at hf; cases hf

lemma applyMappings_frozen :
    ∀ (ms : List MRow) (db : List CertRow) (i : Nat) (d : CertRow),
      (db.getD i d).mapped_to_mip = true → (applyMappings db ms).getD i d = db.getD i d := by
  intro ms
  induction ms with
  | nil => intro db i d _; rfl
  | cons m ms ih =>
      intro db i d h
      have h1 := applyOne_frozen m db i d h
      calc (applyMappings db (m :: ms)).getD i d
          = (applyMappings (applyOne m db) ms).getD i d := rfl
        _ = (applyOne m db).getD i d := ih _ i d (by rw [h1]; exact h)
        _ = db.getD i d := h1

lemma applyMappings_change :
    ∀ (ms : List MRow) (db : List CertRow) (i : Nat) (d : CertRow),
      (applyMappings db ms).getD i d ≠ db.getD i d →
      (db.getD i d).mapped_to_mip = false ∧
      ∃ m ∈ ms, serialMatch (db.getD i d) m = true ∧
        (applyMappings db ms).getD i d = markMapped (db.getD i d) m := by
  intro ms
  induction ms with
  | nil => intro db i d h; exact absurd rfl h
  | cons m ms ih =>
      intro db i d h
      rcases applyOne_getD m db i d with he | ⟨hf, hs, he⟩
      · have h2 : (applyMappings (applyOne m db) ms).getD i d ≠ (applyOne m db).getD i d := by
          rw [he]; exact h
        obtain ⟨hf, m', hm', hs', he'⟩ := ih (applyOne m db) i d h2
        rw [he] at hf hs' he'
        exact ⟨hf, m', List.mem_cons_of_mem _ hm', hs', he'⟩
      · have hfin : (applyMappings (applyOne m db) ms).getD i d = (applyOne m db).getD i d := by
          apply applyMappings_frozen
          rw [he]; rfl
        refine ⟨hf, m, List.mem_cons_self m ms, hs, ?_⟩
        calc (applyMappings db (m :: ms)).getD i d
            = (applyMappings (applyOne m db) ms).getD i d := rfl
          _ = (applyOne m db).getD i d := hfin
          _ = markMapped (db.getD i d) m := he

lemma updateRow_mapped (r : CertRow) (cd : Rec)
    (h1 : hasKey cd "mapped_to_mip" = false) (h2 : hasKey cd "mip_status" = false) :
    (updateRow r cd).mapped_to_mip = r.mapped_to_mip
      ∧ (updateRow r cd).mip_status = r.mip_status := by
  simp [updateRow, h1, h2]

lemma updateFirst_getD_field {α : Type} (g : CertRow → α) (p : CertRow → Bool)
    (f : CertRow → CertRow) (hg : ∀ x, g (f x) = g x) :
    ∀ (l : List CertRow) (i : Nat) (d : CertRow),
      g ((updateFirst p f l).getD i d) = g (l.getD i d) := by
  intro l
  induction l with
  | nil => intro i d; rfl
  | cons c rest ih =>
      intro i d
      simp only [updateFirst]
      by_cases hc : p c = true
      · rw [if_pos hc]
        cases i with
        | zero => simp [List.getD_cons_zero, hg]
        | succ i => simp [List.getD_cons_succ]
      · rw [if_neg hc]
        cases i with
        | zero => simp [List.getD_cons_zero]
        | succ i => simpa [List.getD_cons_succ] using ih i d

lemma saveCertsList_single (db : List CertRow) (cd : Rec) :
    saveCertsList db [cd] =
      if jtruthy (jget cd "id") = true then
        (if db.any (fun r => jbeq r.id (jget cd "id"))
         then updateFirst (fun r => jbeq r.id (jget cd "id")) (fun r => updateRow r cd) db
         else db ++ [updateRow { id := jget cd "id" } cd])
      else db := by
  by_cases h : jtruthy (jget cd "id") = true <;>
    simp [saveCertsList, h]

/-- C7: (apply phase) a certificate whose `mappedToMip` is already true is
never touched by the annotation apply loop — neither its `mappedToMip` nor
its `mipStatus` changes; a row changes only if it was unmapped and some
mapping row matches its `serialNumber` exactly, in which case the change is
precisely `mappedToMip := true, mipStatus := row.certificateStatus`;
(sync upserts) normalized records never carry the `mapped_to_mip` /
`mip_status` keys, and `save_certificates` preserves both local fields of
every existing row when those keys are absent, so the invariant survives
re-observation of a certificate. -/
theorem claim7_mapped_to_mip_monotone :
    (∀ (db : List CertRow) (ms : List MRow) (i : Nat) (d : CertRow),
        ((db.getD i d).mapped_to_mip = true →
          (applyMappings db ms).getD i d = db.getD i d)
      ∧ ((applyMappings db ms).getD i d ≠ db.getD i d →
          (db.getD i d).mapped_to_mip = false ∧
          ∃ m ∈ ms, serialMatch (db.getD i d) m = true ∧
            (applyMappings db ms).getD i d = markMapped (db.getD i d) m))
  ∧ (∀ raw : Rec, hasKey (normalize_cert raw) "mapped_to_mip" = false ∧
        hasKey (normalize_cert raw) "mip_status" = false)
  ∧ (∀ (db : List CertRow) (cd : Rec) (i : Nat) (d : CertRow),
        hasKey cd "mapped_to_mip" = false → hasKey cd "mip_status" = false →
        i < db.length →
        ((saveCertsList db [cd]).getD i d).mapped_to_mip = (db.getD i d).mapped_to_mip ∧
        ((saveCertsList db [cd]).getD i d).mip_status = (db.getD i d).mip_status) := by
  refine ⟨fun db ms i d => ⟨applyMappings_frozen ms db i d, applyMappings_change ms db i d⟩,
    fun raw => ⟨rfl, rfl⟩, fun db cd i d h1 h2 hil => ?_⟩
  rw [saveCertsList_single]
  by_cases ht : jtruthy (jget cd "id") = true
  · rw [if_pos ht]
    by_cases ha : db.any (fun r => jbeq r.id (jget cd "id")) = true
    · rw [if_pos ha]
      constructor
      · exact updateFirst_getD_field (fun r => r.mapped_to_mip) _ _
          (fun x => (updateRow_mapped x cd h1 h2).1) db i d
      · exact updateFirst_getD_field (fun r => r.mip_status) _ _
          (fun x => (updateRow_mapped x cd h1 h2).2) db i d
    · rw [if_neg ha, List.getD_append _ _ _ _ hil]
      exact ⟨rfl, rfl⟩
  · rw [if_neg ht]
    exact ⟨rfl, rfl⟩

/-- Witness for C7: a mapped certificate (`mipStatus = "A"`) is untouched by
applying a mapping row with the same serial and status `"B"` — scenario S6
of the spec. -/
theorem claim7_mapped_to_mip_monotone_witness :
    (applyMappings [mappedRow] [remapRow]).getD 0 default = [mappedRow].getD 0 default :=
  (claim7_mapped_to_mip_monotone.1 [mappedRow] [remapRow] 0 default).1 rfl

/-! ## Claim C2 — normalization and payload round-trip -/

/-- C2 counterexample: on a raw record with an `sha1` but no `certhash`, the
normalized record's `certhash` is `null` — the computed sha1 fallback is
discarded unused by the source — and the raw `sha1` field is not passed
through at all; moreover the stored `full_json` is the normalized
(projected) record, not the raw upstream payload. -/
theorem claim2_counterexample :
    dictGet exRaw "certhash" = none
  ∧ dictGet exRaw "sha1" = some (.str "abc")
  ∧ dictGet (normalize_cert exRaw) "certhash" = some JVal.null
  ∧ hasKey (normalize_cert exRaw) "sha1" = false
  ∧ ((saveCertsList [] [normalize_cert exRaw]).map fun r => r.full_json)
      = [normalize_cert exRaw] :=
  ⟨rfl, rfl, rfl, rfl, rfl⟩

lemma updateFirst_exists (p : CertRow → Bool) (f : CertRow → CertRow) :
    ∀ l : List CertRow, l.any p = true →
      ∃ x ∈ updateFirst p f l, ∃ y, x = f y := by
  intro l
  induction l with
  | nil => intro h; cases h
  | cons c rest ih =>
      intro h
      simp only [updateFirst]
      by_cases hc : p c = true
      · rw [if_pos hc]
        exact ⟨f c, List.mem_cons_self _ _, c, rfl⟩
      · rw [if_neg hc]
        have h' : rest.any p = true := by
          simp only [List.any_cons, hc] at h
          simpa using h
        obtain ⟨x, hx, y, hy⟩ := ih h'
        exact ⟨x, List.mem_cons_of_mem _ hx, y, hy⟩

lemma updateRow_full_json (r : CertRow) (cd : Rec) : (updateRow r cd).full_json = cd := rfl

/-- C2 amended: each normalized record is a fixed projection of the raw
record with exactly the seventeen extracted keys; `certhash` is taken only
from the raw record's own `certhash` field (no sha1 fallback survives);
extracted scalar fields such as `validFromDate` and `serialNumber` pass
through unchanged; and the record the Store preserves alongside the indexed
columns (`full_json`) is exactly the normalized record it was given (the
normalized record round-trips; the raw payload does not). -/
theorem claim2_normalize_projection (raw : Rec) :
    dictKeys (normalize_cert raw) =
      ["id", "certhash", "keySize", "serialNumber", "validFromDate", "validToDate",
       "signatureAlgorithm", "extendedValidation", "selfSigned", "issuer.name",
       "issuer.organization", "subject.name", "subject.organization", "assetCount",
       "instanceCount", "sources", "assets"]
  ∧ dictGet (normalize_cert raw) "certhash" = some (jget raw "certhash")
  ∧ dictGet (normalize_cert raw) "validFromDate" = some (jget raw "validFromDate")
  ∧ dictGet (normalize_cert raw) "serialNumber" = some (jget raw "serialNumber")
  ∧ ∀ (db : List CertRow) (cd : Rec), jtruthy (jget cd "id") = true →
      ∃ row ∈ saveCertsList db [cd], row.full_json = cd := by
  refine ⟨rfl, rfl, rfl, rfl, fun db cd ht => ?_⟩
  rw [saveCertsList_single, if_pos ht]
  by_cases ha : db.any (fun r => jbeq r.id (jget cd "id")) = true
  · rw [if_pos ha]
    obtain ⟨x, hx, y, hy⟩ := updateFirst_exists _ _ db ha
    exact ⟨x, hx, by rw [hy]; exact updateRow_full_json y cd⟩
  · rw [if_neg ha]
    exact ⟨updateRow { id := jget cd "id" } cd, by simp, updateRow_full_json _ _⟩

/-- Witness for C2 amended: the example normalized record is stored with
`full_json` equal to itself. -/
theorem claim2_normalize_projection_witness :
    ∃ row ∈ saveCertsList [] [normalize_cert exRaw], row.full_json = normalize_cert exRaw :=
  (claim2_normalize_projection exRaw).2.2.2.2 [] (normalize_cert exRaw) rfl

/-! ## Claim C8 — token cache behaviour -/

/-- C8 counterexample: three reads at times 0s, 12240s (3.4 h) and 12960s
(3.6 h), never forcing a refresh.  The second and third reads are only 720
seconds apart — far below 3.5 h — yet return different values (`v0` vs
`v1`), because at the third read the *cached token's age* has crossed the
3.5-hour refresh deadline.  The claim's "any two token reads less than 3.5
hours apart return the identical value" is false on the code. -/
theorem claim8_counterexample :
    (runTokenCalls ⟨.null, 0⟩
        [(0, false, respV0), (12240, false, respV0), (12960, false, respV1)]).1
      = [.str "v0", .str "v0", .str "v1"]
  ∧ 12960 - 12240 < REFRESH_INTERVAL
  ∧ ("v0" : String) ≠ "v1" :=
  ⟨rfl, by decide, by decide⟩

/-- C8 amended: `get_token` returns the cached value whenever a truthy token
is cached, no refresh is forced, and the *token's age* is below 3.5 hours —
so any two reads with no forced refresh between them return the identical
value provided the second read still finds the cached token younger than
3.5 hours; otherwise a new token is fetched whose value is taken from the
JSON response key `token`, else `access_token`, else the raw response
body. -/
theorem claim8_token_cache :
    (∀ (st : TMState) (now : Nat) (resp : AuthResp),
        jtruthy st.token = true → now - st.issueTime < REFRESH_INTERVAL →
        getToken st now false resp = (st.token, st))
  ∧ (∀ (st : TMState) (now : Nat) (force : Bool) (resp : AuthResp),
        (jtruthy st.token && !force && decide (now - st.issueTime < REFRESH_INTERVAL)) = false →
        getToken st now force resp = (extractToken resp, ⟨extractToken resp, now⟩))
  ∧ (∀ (data : Rec) (text : String), extractToken ⟨some data, text⟩ =
        if hasKey data "token" then dictGetD data "token" .null
        else if hasKey data "access_token" then dictGetD data "access_token" .null
        else .str text)
  ∧ (∀ text : String, extractToken ⟨none, text⟩ = .str text)
  ∧ (∀ (st : TMState) (t1 t2 : Nat) (r1 r2 : AuthResp),
        jtruthy (getToken st t1 false r1).2.token = true →
        t2 - (getToken st t1 false r1).2.issueTime < REFRESH_INTERVAL →
        (getToken (getToken st t1 false r1).2 t2 false r2).1 = (getToken st t1 false r1).1) := by
  have hval : ∀ (st : TMState) (now : Nat) (force : Bool) (resp : AuthResp),
      (getToken st now force resp).1 = (getToken st now force resp).2.token := by
    intro st now force resp
    unfold getToken
    split <;> rfl
  refine ⟨?_, ?_, fun data text => rfl, fun text => rfl, ?_⟩
  · intro st now resp h1 h2
    simp [getToken, h1, h2]
  · intro st now force resp h
    simp only [getToken, h]
    simp
  · intro st t1 t2 r1 r2 h1 h2
    rw [hval st t1 false r1]
    generalize (getToken st t1 false r1).2 = st' at h1 h2 ⊢
    simp [getToken, h1, h2]

/-- Witness for C8 amended: a cached truthy token aged 97 seconds is
returned unchanged. -/
theorem claim8_token_cache_witness :
    getToken ⟨.str "v", 3⟩ 100 false respV0 = (.str "v", ⟨.str "v", 3⟩) :=
  claim8_token_cache.1 ⟨.str "v", 3⟩ 100 respV0 rfl (by decide)

end QualysApi
